import Mathlib

/-!
# Verification of the LLM-Performance-Visualizer analytical core

Shallow embedding of the core numeric pipeline of `src/App.jsx`:
parameter counting (`calculateModelParameters`), operation counting
(`calculateOperations`), memory-traffic estimation (`calculateMemoryReads`),
roofline-additive throughput (`calculateThroughput`), the curve-sampling loop
of the recompute effect, and the debounce hook (`useDebounce`).

Two embeddings of the arithmetic are used:

* an exact-rational embedding (`ℚ`) for claims about well-formed records,
  where every JavaScript arithmetic step stays finite (the spec demands
  exact arithmetic for integer inputs, and all quantities involved are far
  below 2^53 where doubles are exact on these formulas' integer values);
* a JavaScript-number embedding (`JNum`: rationals extended with the IEEE
  special values NaN / ±Infinity, without rounding) for the error-handling
  and memory-traffic claims, where division by a zero or absent field
  produces non-finite intermediate values, the bytes-per-element
  object-literal lookup can return an inherited `Object.prototype` member
  (behaving as NaN in arithmetic) instead of the `?? 4` default, and
  JavaScript arithmetic never throws.
-/

set_option autoImplicit false

namespace LLMPerf

/-- Architecture record as destructured from the parsed configuration JSON in
`calculateModelParameters` / `calculateOperations` / `calculateMemoryReads`.
Numeric fields are JavaScript numbers (embedded as `ℚ`); `hidden_act` and
`torch_dtype` are optional strings (`none` = field absent); absent
`tie_word_embeddings` is falsy in JS, so it is embedded as `Bool` with
`false` covering both `false` and absent. -/
structure ModelRecord where
  hidden_size : ℚ
  num_hidden_layers : ℚ
  intermediate_size : ℚ
  vocab_size : ℚ
  hidden_act : Option String
  tie_word_embeddings : Bool
  num_attention_heads : ℚ
  num_key_value_heads : ℚ
  torch_dtype : Option String
  deriving DecidableEq

/-- The activation names the source tests against:
`["silu", "swiglu", "geglu"].includes(hidden_act)`. -/
def gatedActivationNames : List String := ["silu", "swiglu", "geglu"]

/-- The `isGated` test as written inside `calculateModelParameters`
(line 61 of `App.jsx`); `.includes(undefined)` is `false` in JS. -/
def isGatedParams (a : Option String) : Bool :=
  match a with
  | some s => gatedActivationNames.contains s
  | none => false

/-- The `isGated` test as written (a second time) inside
`calculateOperations` (line 73 of `App.jsx`). -/
def isGatedOps (a : Option String) : Bool :=
  match a with
  | some s => gatedActivationNames.contains s
  | none => false

/-- `calculateModelParameters` (App.jsx lines 59-68):
embedding + layers * (attention + feedforward + layernorm). -/
def calculateModelParameters (m : ModelRecord) : ℚ :=
  let isGated := isGatedParams m.hidden_act
  let embed := m.vocab_size * m.hidden_size * (if m.tie_word_embeddings then 1 else 2)
  let head_size := m.hidden_size / m.num_attention_heads
  let attn := 2 * m.hidden_size ^ 2 + 2 * m.hidden_size * m.num_key_value_heads * head_size
  let ffn := (if isGated then 3 else 2) * m.hidden_size * m.intermediate_size
  let ln := 4 * m.hidden_size
  embed + m.num_hidden_layers * (attn + ffn + ln)

/-- `calculateOperations` (App.jsx lines 70-94): FLOPs-proxy count for one
forward pass at sequence length `seq` and batch size `b`. -/
def calculateOperations (m : ModelRecord) (seq b : ℚ) : ℚ :=
  let isGated := isGatedOps m.hidden_act
  let actCost : ℚ := if isGated then 3 else 1
  let kvScale := m.num_key_value_heads / m.num_attention_heads
  let attention := 2 * m.hidden_size ^ 2 * (2 + 2 * kvScale) + 4 * m.hidden_size * seq
  let feed_forward := m.hidden_size * m.intermediate_size * (if isGated then 6 else 4)
    + m.intermediate_size * (if isGated then actCost + 1 else actCost)
  let lm_head := 2 * m.hidden_size * m.vocab_size
  b * (m.num_hidden_layers * (attention + feed_forward) + lm_head)

/-- The numeric restriction of the bytes-per-element lookup of
`calculateMemoryReads` (App.jsx line 98):
`{ float32: 4, float16: 2, bfloat16: 2 }[m.torch_dtype] ?? 4`.

This `ℚ`-valued function is the lookup's value whenever that value is a
number: the three recognized tags hit own properties of the object
literal, and any other tag that is not an inherited `Object.prototype`
property name yields `undefined`, so `?? 4` applies.  It is NOT faithful
for a tag naming an inherited `Object.prototype` member (e.g.
"toString"): there the lookup returns the inherited member, which is not
nullish, so `?? 4` never applies and the downstream multiplication
produces NaN.  The full lookup semantics is `bytesPerElementJs` below,
proved to restrict to this function off the prototype keys
(`bytesPerElementJs_eq_fin`); the exact-rational pipeline built on this
function is therefore used only where the precision tag is recognized,
absent, or at least not a prototype key. -/
def bytesPerElement (dtype : Option String) : ℚ :=
  if dtype = some "float32" then 4
  else if dtype = some "float16" then 2
  else if dtype = some "bfloat16" then 2
  else 4

/-- `calculateMemoryReads` (App.jsx lines 97-101): bytes read for one forward
pass, weights plus key/value cache. -/
def calculateMemoryReads (m : ModelRecord) (seq b : ℚ) : ℚ :=
  let bytes := bytesPerElement m.torch_dtype
  let kv := b * seq * m.num_hidden_layers * m.hidden_size * 2
  (calculateModelParameters m + kv) * bytes

/-- `calculateThroughput` (App.jsx lines 103-113) on an already-decoded
configuration: `none` models the `catch` branch (JSON.parse threw, or
destructuring a non-object threw), which returns 0.  On a record,
`b / (memT + compT)` with `memT = reads / (mem * 1e9)` and
`compT = ops / (flops * 1e12)`. -/
def calculateThroughput (cfg : Option ModelRecord) (mem flops b seq : ℚ) : ℚ :=
  match cfg with
  | none => 0
  | some m =>
    let memT := calculateMemoryReads m seq b / (mem * 1000000000)
    let compT := calculateOperations m seq b / (flops * 1000000000000)
    b / (memT + compT)

/-- Builds a `ModelRecord` whose numeric fields are natural numbers, the shape
the claims about exact integer arithmetic quantify over. -/
def natRecord (hidden layers inter vocab : ℕ) (act : Option String) (tie : Bool)
    (heads kv : ℕ) (dtype : Option String) : ModelRecord :=
  ⟨hidden, layers, inter, vocab, act, tie, heads, kv, dtype⟩

/-- The GPT-2-small-like record of spec §8.1: hidden_size 768, 12 layers,
intermediate 3072, vocab 50257, non-gated activation, tied embeddings,
12 attention heads, 12 key/value heads. -/
def gpt2Record : ModelRecord :=
  natRecord 768 12 3072 50257 (some "gelu") true 12 12 none

/-! ### Claim-side closed-form parameter formula (spec §4.2)

Stated in exact natural-number arithmetic, as the claim demands
("exact integer arithmetic where inputs are integers; no rounding");
`hidden / heads` is the head size, an exact quotient when
`heads ∣ hidden`. -/

/-- Spec formula: embedding parameters. -/
def specEmbeddingParams (vocab hidden : ℕ) (tie : Bool) : ℕ :=
  vocab * hidden * (if tie then 1 else 2)

/-- Spec formula: per-layer attention parameters,
`2·hidden² + 2·hidden·kv·(hidden/heads)`. -/
def specAttentionParams (hidden heads kv : ℕ) : ℕ :=
  2 * hidden ^ 2 + 2 * hidden * kv * (hidden / heads)

/-- Spec formula: per-layer feedforward parameters. -/
def specFeedforwardParams (gated : Bool) (hidden inter : ℕ) : ℕ :=
  (if gated then 3 else 2) * hidden * inter

/-- Spec formula: per-layer layernorm parameters. -/
def specLayernormParams (hidden : ℕ) : ℕ :=
  4 * hidden

/-- Spec formula: total parameter count (spec §4.2). -/
def specParameterCount (hidden layers inter vocab : ℕ) (act : Option String)
    (tie : Bool) (heads kv : ℕ) : ℕ :=
  specEmbeddingParams vocab hidden tie
    + layers * (specAttentionParams hidden heads kv
        + specFeedforwardParams (isGatedParams act) hidden inter
        + specLayernormParams hidden)

end LLMPerf

namespace LLMPerf

/-- C1: on every architecture record with natural-number fields where the
head count divides the hidden size, `calculateModelParameters` returns
exactly the spec §4.2 closed-form value computed in exact integer
arithmetic; and on the GPT-2-small-like record it returns 123,568,896. -/
theorem parameter_count_matches_spec :
    (∀ (hidden layers inter vocab heads kv : ℕ) (act : Option String) (tie : Bool)
      (dtype : Option String), heads ∣ hidden →
      calculateModelParameters (natRecord hidden layers inter vocab act tie heads kv dtype)
        = (specParameterCount hidden layers inter vocab act tie heads kv : ℚ))
    ∧ calculateModelParameters gpt2Record = 123568896 := by
  constructor
  · intro hidden layers inter vocab heads kv act tie dtype hdvd
    simp only [calculateModelParameters, natRecord, specParameterCount, specEmbeddingParams,
      specAttentionParams, specFeedforwardParams, specLayernormParams]
    rcases Nat.eq_zero_or_pos heads with h0 | hpos
    · subst h0
      obtain rfl : hidden = 0 := Nat.zero_dvd.mp hdvd
      push_cast [apply_ite (Nat.cast : ℕ → ℚ)]
      split_ifs <;> ring
    · have hne : (heads : ℚ) ≠ 0 := Nat.cast_ne_zero.mpr hpos.ne'
      have hdiv : ((hidden / heads : ℕ) : ℚ) = (hidden : ℚ) / (heads : ℚ) :=
        Nat.cast_div hdvd hne
      push_cast [hdiv, apply_ite (Nat.cast : ℕ → ℚ)]
      split_ifs <;> ring
  · have hg : isGatedParams (some "gelu") = false := by decide
    simp only [calculateModelParameters, gpt2Record, natRecord, hg]
    norm_num

/-- Witness for C1 at the GPT-2-small-like shape: 12 divides 768 and the
general clause evaluates to the hand-checked total. -/
theorem parameter_count_matches_spec_witness :
    calculateModelParameters (natRecord 768 12 3072 50257 (some "gelu") true 12 12 none)
      = (specParameterCount 768 12 3072 50257 (some "gelu") true 12 12 : ℚ) :=
  parameter_count_matches_spec.1 768 12 3072 50257 12 12 (some "gelu") true none
    (by decide)

/-! ### Claim-side formulas for operation count (spec §4.3), memory traffic
(spec §4.4) and the two candidate throughput combinations (spec §4.5). -/

/-- Spec formula: attention operations,
`2·hidden²·(2 + 2·kvScale) + 4·hidden·seqLen` with
`kvScale = num_key_value_heads / num_attention_heads`. -/
def specAttentionOps (hidden heads kv seq : ℚ) : ℚ :=
  2 * hidden ^ 2 * (2 + 2 * (kv / heads)) + 4 * hidden * seq

/-- Spec formula: feedforward operations,
`hidden·inter·(6 if gated else 4) + inter·(4 if gated else 1)`. -/
def specFeedforwardOps (gated : Bool) (hidden inter : ℚ) : ℚ :=
  hidden * inter * (if gated then 6 else 4) + inter * (if gated then 4 else 1)

/-- Spec formula: LM-head operations, `2·hidden·vocab`. -/
def specLmHeadOps (hidden vocab : ℚ) : ℚ :=
  2 * hidden * vocab

/-- Spec formula: total operation count,
`batch × (layers × (attention + feedforward) + lm_head)`. -/
def specOperationCount (m : ModelRecord) (seq b : ℚ) : ℚ :=
  b * (m.num_hidden_layers
      * (specAttentionOps m.hidden_size m.num_attention_heads m.num_key_value_heads seq
          + specFeedforwardOps (isGatedOps m.hidden_act) m.hidden_size m.intermediate_size)
    + specLmHeadOps m.hidden_size m.vocab_size)

/-- Spec formula: memory traffic,
`(ParameterCounter + batch × seq × layers × hidden × 2) × bytesPerElement`. -/
def specMemoryTraffic (m : ModelRecord) (seq b : ℚ) : ℚ :=
  (calculateModelParameters m + b * seq * m.num_hidden_layers * m.hidden_size * 2)
    * bytesPerElement m.torch_dtype

/-- Spec formula: the additive (roofline-sequential) throughput combination of
spec §4.5, `batch / (memTime + compTime)`. -/
def specThroughputAdditive (m : ModelRecord) (mem flops b seq : ℚ) : ℚ :=
  b / (calculateMemoryReads m seq b / (mem * 1000000000)
    + calculateOperations m seq b / (flops * 1000000000000))

/-- The max-of-bottlenecks combination that spec §4.5 explicitly rejects,
kept only to be distinguished from the implemented additive combination. -/
def specThroughputMaxOf (m : ModelRecord) (mem flops b seq : ℚ) : ℚ :=
  b / max (calculateMemoryReads m seq b / (mem * 1000000000))
      (calculateOperations m seq b / (flops * 1000000000000))

/-- A well-formed architecture record (spec §3): positive sizes and counts,
key/value heads at most attention heads. -/
structure ValidRecord (m : ModelRecord) : Prop where
  hidden_pos : 0 < m.hidden_size
  layers_pos : 0 < m.num_hidden_layers
  inter_pos : 0 < m.intermediate_size
  vocab_pos : 0 < m.vocab_size
  heads_pos : 0 < m.num_attention_heads
  kv_pos : 0 < m.num_key_value_heads
  kv_le_heads : m.num_key_value_heads ≤ m.num_attention_heads

theorem bytesPerElement_pos (dtype : Option String) : 0 < bytesPerElement dtype := by
  unfold bytesPerElement
  split_ifs <;> norm_num

theorem calculateModelParameters_pos {m : ModelRecord} (hm : ValidRecord m) :
    0 < calculateModelParameters m := by
  obtain ⟨hh, hl, hi, hv, hheads, hkv, _⟩ := hm
  simp only [calculateModelParameters]
  split_ifs <;> positivity

theorem calculateOperations_pos {m : ModelRecord} (hm : ValidRecord m)
    {seq b : ℚ} (hseq : 0 < seq) (hb : 0 < b) :
    0 < calculateOperations m seq b := by
  obtain ⟨hh, hl, hi, hv, hheads, hkv, _⟩ := hm
  simp only [calculateOperations]
  split_ifs <;> positivity

theorem calculateMemoryReads_pos {m : ModelRecord} (hm : ValidRecord m)
    {seq b : ℚ} (hseq : 0 < seq) (hb : 0 < b) :
    0 < calculateMemoryReads m seq b := by
  have hp := calculateModelParameters_pos hm
  obtain ⟨hh, hl, hi, hv, hheads, hkv, _⟩ := hm
  simp only [calculateMemoryReads]
  have hbytes := bytesPerElement_pos m.torch_dtype
  positivity

theorem calculateOperations_mono {m : ModelRecord} (hm : ValidRecord m)
    {s1 s2 b : ℚ} (hb : 0 < b) (h12 : s1 ≤ s2) :
    calculateOperations m s1 b ≤ calculateOperations m s2 b := by
  obtain ⟨hh, hl, hi, hv, hheads, hkv, _⟩ := hm
  simp only [calculateOperations]
  gcongr

theorem calculateMemoryReads_mono {m : ModelRecord} (hm : ValidRecord m)
    {s1 s2 b : ℚ} (hb : 0 < b) (h12 : s1 ≤ s2) :
    calculateMemoryReads m s1 b ≤ calculateMemoryReads m s2 b := by
  have hbytes := bytesPerElement_pos m.torch_dtype
  obtain ⟨hh, hl, hi, hv, hheads, hkv, _⟩ := hm
  simp only [calculateMemoryReads]
  gcongr

end LLMPerf

namespace LLMPerf

/-- C2: `calculateOperations` returns exactly the spec §4.3 closed-form
operation count, for every record and every sequence length and batch
size at least 1. -/
theorem operation_count_matches_spec :
    ∀ (m : ModelRecord) (seq b : ℚ), 1 ≤ seq → 1 ≤ b →
      calculateOperations m seq b = specOperationCount m seq b := by
  intro m seq b _ _
  simp only [calculateOperations, specOperationCount, specAttentionOps,
    specFeedforwardOps, specLmHeadOps]
  split_ifs <;> ring

/-- Witness for C2 at the GPT-2-small-like record, sequence length 1,
batch size 1. -/
theorem operation_count_matches_spec_witness :
    calculateOperations gpt2Record 1 1 = specOperationCount gpt2Record 1 1 :=
  operation_count_matches_spec gpt2Record 1 1 (le_refl 1) (le_refl 1)

/-- C4: `calculateThroughput` on a decoded record is exactly the additive
roofline combination `batch / (memTime + compTime)` of spec §4.5, and on
every valid record with positive hardware limits it is strictly below the
max-of-bottlenecks combination, so the two are never interchangeable. -/
theorem throughput_additive_combination :
    (∀ (m : ModelRecord) (mem flops b seq : ℚ),
      calculateThroughput (some m) mem flops b seq = specThroughputAdditive m mem flops b seq)
    ∧ ∀ (m : ModelRecord) (mem flops b seq : ℚ), ValidRecord m →
        0 < mem → 0 < flops → 0 < b → 0 < seq →
        calculateThroughput (some m) mem flops b seq < specThroughputMaxOf m mem flops b seq := by
  constructor
  · intro m mem flops b seq
    rfl
  · intro m mem flops b seq hm hmem hflops hb hseq
    have hmemT : 0 < calculateMemoryReads m seq b / (mem * 1000000000) :=
      div_pos (calculateMemoryReads_pos hm hseq hb) (by positivity)
    have hcompT : 0 < calculateOperations m seq b / (flops * 1000000000000) :=
      div_pos (calculateOperations_pos hm hseq hb) (by positivity)
    show specThroughputAdditive m mem flops b seq < specThroughputMaxOf m mem flops b seq
    unfold specThroughputAdditive specThroughputMaxOf
    apply div_lt_div_of_pos_left hb (lt_max_of_lt_left hmemT)
    exact max_lt (lt_add_of_pos_right _ hcompT) (lt_add_of_pos_left _ hmemT)

/-- The GPT-2-small-like record is well formed. -/
theorem gpt2Record_valid : ValidRecord gpt2Record := by
  constructor <;> norm_num [gpt2Record, natRecord]

/-- Witness for C4 at the GPT-2-small-like record with the default hardware
profile (1792 GB/s, 209 TFLOPs, batch 1, sequence length 1024). -/
theorem throughput_additive_combination_witness :
    calculateThroughput (some gpt2Record) 1792 209 1 1024
      < specThroughputMaxOf gpt2Record 1792 209 1 1024 :=
  throughput_additive_combination.2 gpt2Record 1792 209 1 1024 gpt2Record_valid
    (by norm_num) (by norm_num) (by norm_num) (by norm_num)

/-- C6: for every valid record, positive hardware limits and batch size ≥ 1,
the throughput at any sequence length ≥ 1 is strictly positive (hence finite
in the exact rational semantics of the formulas), and it is monotonically
non-increasing in the sequence length. -/
theorem throughput_positive_and_antitone :
    ∀ (m : ModelRecord) (mem flops b s1 s2 : ℚ), ValidRecord m →
      0 < mem → 0 < flops → 1 ≤ b → 1 ≤ s1 → s1 ≤ s2 →
      0 < calculateThroughput (some m) mem flops b s1
      ∧ calculateThroughput (some m) mem flops b s2
          ≤ calculateThroughput (some m) mem flops b s1 := by
  intro m mem flops b s1 s2 hm hmem hflops hb hs1 h12
  have hb0 : (0:ℚ) < b := lt_of_lt_of_le one_pos hb
  have hs10 : (0:ℚ) < s1 := lt_of_lt_of_le one_pos hs1
  have hs20 : (0:ℚ) < s2 := lt_of_lt_of_le hs10 h12
  have hD : ∀ s : ℚ, 0 < s →
      0 < calculateMemoryReads m s b / (mem * 1000000000)
        + calculateOperations m s b / (flops * 1000000000000) := by
    intro s hs
    have h1 := div_pos (calculateMemoryReads_pos hm hs hb0)
      (show (0:ℚ) < mem * 1000000000 by positivity)
    have h2 := div_pos (calculateOperations_pos hm hs hb0)
      (show (0:ℚ) < flops * 1000000000000 by positivity)
    linarith
  simp only [calculateThroughput]
  refine ⟨div_pos hb0 (hD s1 hs10), ?_⟩
  apply div_le_div_of_nonneg_left hb0.le (hD s1 hs10)
  have hr := calculateMemoryReads_mono hm hb0 h12
  have ho := calculateOperations_mono hm hb0 h12
  have h1 : calculateMemoryReads m s1 b / (mem * 1000000000)
      ≤ calculateMemoryReads m s2 b / (mem * 1000000000) :=
    (div_le_div_iff_of_pos_right (by positivity)).mpr hr
  have h2 : calculateOperations m s1 b / (flops * 1000000000000)
      ≤ calculateOperations m s2 b / (flops * 1000000000000) :=
    (div_le_div_iff_of_pos_right (by positivity)).mpr ho
  linarith

/-- Witness for C6 at the GPT-2-small-like record, sequence lengths 1 ≤ 2. -/
theorem throughput_positive_and_antitone_witness :
    0 < calculateThroughput (some gpt2Record) 1792 209 1 1
    ∧ calculateThroughput (some gpt2Record) 1792 209 1 2
        ≤ calculateThroughput (some gpt2Record) 1792 209 1 1 :=
  throughput_positive_and_antitone gpt2Record 1792 209 1 1 2 gpt2Record_valid
    (by norm_num) (by norm_num) (by norm_num) (by norm_num) (by norm_num)

/-! ### The curve-recompute effect (App.jsx lines 117-130)

`for (let s = 1; s <= ms; s += step)` with
`step = Math.max(1, Math.floor(ms / 800))`, pushing `s` on `xs`, the
throughput `t` on the total series and `t / bs` on the perUser series.
The loop is embedded with a fuel argument (`ms + 1` iterations always
suffice, since the step is at least 1). -/

/-- One series of the chart data: x-coordinates (sequence lengths) and
y-coordinates (throughput values). -/
structure Series where
  x : List ℕ
  y : List ℚ

/-- The `throughputData` state shape: a total and a per-user series. -/
structure ThroughputCurve where
  total : Series
  perUser : Series

/-- `step = Math.max(1, Math.floor(ms / 800))` (App.jsx line 123). -/
def curveStep (ms : ℕ) : ℕ := max 1 (ms / 800)

/-- The sampled sequence lengths of the loop
`for (let s = 1; s <= ms; s += step)`, starting from `s`. -/
def curveLoop : ℕ → ℕ → ℕ → ℕ → List ℕ
  | 0, _, _, _ => []
  | fuel + 1, step, ms, s => if s ≤ ms then s :: curveLoop fuel step ms (s + step) else []

/-- All sampled sequence lengths for a maximum sweep length `ms`. -/
def curveXs (ms : ℕ) : List ℕ := curveLoop (ms + 1) (curveStep ms) ms 1

/-- The curve published by the recompute effect: both series share the
sampled x-coordinates; the total series carries `calculateThroughput` and
the per-user series carries the same value divided by the batch size. -/
def throughputData (cfg : Option ModelRecord) (mem flops b : ℚ) (ms : ℕ) : ThroughputCurve :=
  { total :=
      ⟨curveXs ms, (curveXs ms).map fun (s : ℕ) => calculateThroughput cfg mem flops b (s : ℚ)⟩
    perUser :=
      ⟨curveXs ms,
       (curveXs ms).map fun (s : ℕ) => calculateThroughput cfg mem flops b (s : ℚ) / b⟩ }

theorem curveLoop_of_gt (fuel step ms s : ℕ) (h : ms < s) : curveLoop fuel step ms s = [] := by
  cases fuel with
  | zero => rfl
  | succ f => simp [curveLoop, Nat.not_le.mpr h]

theorem curveLoop_closed_form :
    ∀ (fuel step ms s : ℕ), 0 < step → s ≤ ms → ms + 1 ≤ fuel + s →
      curveLoop fuel step ms s
        = (List.range ((ms - s) / step + 1)).map (fun k => s + k * step) := by
  intro fuel
  induction fuel with
  | zero =>
    intro step ms s _ hs hfuel
    omega
  | succ f ih =>
    intro step ms s hstep hs hfuel
    simp only [curveLoop, if_pos hs]
    by_cases hnext : s + step ≤ ms
    · rw [ih step ms (s + step) hstep hnext (by omega)]
      have hdivstep : (ms - s) / step = (ms - s - step) / step + 1 :=
        Nat.div_eq_sub_div hstep (by omega)
      have harg : ms - (s + step) = ms - s - step := by omega
      rw [harg, hdivstep]
      conv_rhs => rw [List.range_succ_eq_map]
      simp only [List.map_cons, List.map_map]
      congr 1
      · omega
      · congr 1
        funext k
        simp only [Function.comp_apply, Nat.succ_eq_add_one]
        ring
    · rw [curveLoop_of_gt f step ms (s + step) (by omega)]
      have hz : (ms - s) / step = 0 := Nat.div_eq_of_lt (by omega)
      rw [hz]
      simp [List.range_succ]

theorem curveXs_closed_form (ms : ℕ) (hms : 1 ≤ ms) :
    curveXs ms
      = (List.range ((ms - 1) / curveStep ms + 1)).map (fun k => 1 + k * curveStep ms) := by
  have hstep : 0 < curveStep ms := lt_of_lt_of_le one_pos (le_max_left _ _)
  exact curveLoop_closed_form (ms + 1) (curveStep ms) ms 1 hstep hms (by omega)

theorem curveXs_length (ms : ℕ) (hms : 1 ≤ ms) :
    (curveXs ms).length = (ms - 1) / curveStep ms + 1 := by
  rw [curveXs_closed_form ms hms]
  simp

theorem curveXs_length_le (ms : ℕ) (hms : 1 ≤ ms) : (curveXs ms).length ≤ 1599 := by
  rw [curveXs_length ms hms]
  by_cases hbig : 1600 ≤ ms
  · have hq2 : 2 ≤ ms / 800 := by
      have h16 : (1600 : ℕ) / 800 ≤ ms / 800 := Nat.div_le_div_right hbig
      simpa using h16
    have hstep : curveStep ms = ms / 800 := max_eq_right (by omega)
    rw [hstep]
    have hmod : 800 * (ms / 800) + ms % 800 = ms := Nat.div_add_mod ms 800
    have hlt : ms % 800 < 800 := Nat.mod_lt _ (by norm_num)
    have hub : ms - 1 ≤ 800 * (ms / 800) + 799 := by omega
    have hA : (ms - 1) / (ms / 800) ≤ (800 * (ms / 800) + 799) / (ms / 800) :=
      Nat.div_le_div_right hub
    have hB : (800 * (ms / 800) + 799) / (ms / 800) = 800 + 799 / (ms / 800) := by
      rw [mul_comm]
      exact Nat.mul_add_div (by omega) 800 799
    have hC : 799 / (ms / 800) ≤ 399 :=
      le_trans (Nat.div_le_div_left hq2 (by norm_num)) (by norm_num)
    have key : (ms - 1) / (ms / 800) ≤ 800 + 399 :=
      le_trans (hB ▸ hA) (Nat.add_le_add_left hC 800)
    exact le_trans (Nat.succ_le_succ key) (by norm_num)
  · have hself : (ms - 1) / curveStep ms ≤ ms - 1 := Nat.div_le_self _ _
    generalize (ms - 1) / curveStep ms = A at hself ⊢
    omega

theorem curveXs_mem_bounds (ms : ℕ) (hms : 1 ≤ ms) :
    ∀ x ∈ curveXs ms, 1 ≤ x ∧ x ≤ ms := by
  intro x hx
  rw [curveXs_closed_form ms hms] at hx
  simp only [List.mem_map, List.mem_range] at hx
  obtain ⟨k, hk, rfl⟩ := hx
  refine ⟨by omega, ?_⟩
  have hk' : k ≤ (ms - 1) / curveStep ms := by omega
  have h1 : k * curveStep ms ≤ ((ms - 1) / curveStep ms) * curveStep ms :=
    Nat.mul_le_mul_right _ hk'
  have h2 : ((ms - 1) / curveStep ms) * curveStep ms ≤ ms - 1 := Nat.div_mul_le_self _ _
  omega

theorem getD_map_div (xs : List ℕ) (f : ℕ → ℚ) (b : ℚ) :
    ∀ i : ℕ, (xs.map fun s => f s / b).getD i 0 = (xs.map f).getD i 0 / b := by
  induction xs with
  | nil =>
    intro i
    simp
  | cons a t ih =>
    intro i
    cases i with
    | zero => simp
    | succ j => simpa using ih j

end LLMPerf

namespace LLMPerf

/-- C7: in every published curve, the two series share their x-coordinates
and lengths, and every per-user y-value is exactly the total y-value at the
same position divided by the batch size (out-of-range positions default to
0 on both sides, where the identity also holds). -/
theorem perUser_equals_total_div_batch :
    ∀ (cfg : Option ModelRecord) (mem flops b : ℚ) (ms : ℕ),
      (throughputData cfg mem flops b ms).perUser.x = (throughputData cfg mem flops b ms).total.x
      ∧ (throughputData cfg mem flops b ms).perUser.y.length
          = (throughputData cfg mem flops b ms).total.y.length
      ∧ ∀ i : ℕ, (throughputData cfg mem flops b ms).perUser.y.getD i 0
          = (throughputData cfg mem flops b ms).total.y.getD i 0 / b := by
  intro cfg mem flops b ms
  refine ⟨rfl, by simp [throughputData], ?_⟩
  intro i
  simp only [throughputData]
  exact getD_map_div (curveXs ms) (fun s => calculateThroughput cfg mem flops b (s : ℚ)) b i

/-- C8 counterexample: at maxSeqLen 1599 the step is 1 and the loop samples
1599 points, not ~800; and at maxSeqLen 1600 the step is 2 and maxSeqLen
itself is never sampled (the samples are the odd numbers up to 1599). -/
theorem curve_sampling_counterexample :
    (curveXs 1599).length = 1599 ∧ ¬ (curveXs 1599).length ≤ 800
    ∧ 1600 ∉ curveXs 1600 := by
  have h1 : (curveXs 1599).length = 1599 := by
    rw [curveXs_length 1599 (by norm_num)]
    norm_num [curveStep]
  refine ⟨h1, by omega, ?_⟩
  intro hmem
  rw [curveXs_closed_form 1600 (by norm_num)] at hmem
  simp only [List.mem_map, List.mem_range] at hmem
  obtain ⟨k, hk, heq⟩ := hmem
  rw [show curveStep 1600 = 2 from by norm_num [curveStep]] at hk heq
  omega

/-- C8 amended: the loop samples `s = 1, 1+step, 1+2·step, …` for
`step = max(1, ⌊maxSeqLen/800⌋)`, all samples lie in `[1, maxSeqLen]`
(the largest sample is within `step` of `maxSeqLen` but `maxSeqLen` itself
is sampled only when `step ∣ maxSeqLen − 1`), the number of samples is
bounded by 1599 (not ~800: the bound is attained at `maxSeqLen = 1599`)
regardless of `maxSeqLen`, and both series share exactly these
x-coordinates. -/
theorem curve_sampling_amended :
    ∀ ms : ℕ, 1 ≤ ms →
      curveStep ms = max 1 (ms / 800)
      ∧ curveXs ms
          = (List.range ((ms - 1) / curveStep ms + 1)).map (fun k => 1 + k * curveStep ms)
      ∧ (∀ x ∈ curveXs ms, 1 ≤ x ∧ x ≤ ms)
      ∧ (curveXs ms).length ≤ 1599
      ∧ ∀ (cfg : Option ModelRecord) (mem flops b : ℚ),
          (throughputData cfg mem flops b ms).total.x = curveXs ms
          ∧ (throughputData cfg mem flops b ms).perUser.x = curveXs ms := by
  intro ms hms
  exact ⟨rfl, curveXs_closed_form ms hms, curveXs_mem_bounds ms hms,
    curveXs_length_le ms hms, fun cfg mem flops b => ⟨rfl, rfl⟩⟩

/-- Witness for the amended C8 at maxSeqLen 5 (step 1, samples 1..5). -/
theorem curve_sampling_amended_witness :
    curveXs 5 = (List.range ((5 - 1) / curveStep 5 + 1)).map (fun k => 1 + k * curveStep 5)
    ∧ (curveXs 5).length ≤ 1599 :=
  ⟨(curve_sampling_amended 5 (by norm_num)).2.1,
   (curve_sampling_amended 5 (by norm_num)).2.2.2.1⟩

/-! ### JavaScript-number semantics (for the failure-handling claim)

JavaScript arithmetic never throws: invalid operands produce NaN or
±Infinity, which then flow through the formulas.  `JNum` models a JS
number as NaN, a signed infinity, or an exact finite rational (the claim
depends only on NaN/Infinity propagation, never on rounding; negative
zero cannot arise because the formulas contain no subtraction). -/

/-- A JavaScript number: NaN, ±Infinity (`inf true` = +∞), or finite. -/
inductive JNum where
  | nan : JNum
  | inf : Bool → JNum
  | fin : ℚ → JNum
  deriving DecidableEq

/-- JS `+` on numbers: NaN propagates, opposite infinities give NaN. -/
def jadd : JNum → JNum → JNum
  | .nan, _ => .nan
  | _, .nan => .nan
  | .inf s, .inf t => if s = t then .inf s else .nan
  | .inf s, .fin _ => .inf s
  | .fin _, .inf t => .inf t
  | .fin a, .fin b => .fin (a + b)

/-- JS `*` on numbers: NaN propagates, `0 * ±∞ = NaN`, signs multiply. -/
def jmul : JNum → JNum → JNum
  | .nan, _ => .nan
  | _, .nan => .nan
  | .inf s, .inf t => .inf (s == t)
  | .inf s, .fin b => if b = 0 then .nan else .inf (s == decide (0 < b))
  | .fin a, .inf t => if a = 0 then .nan else .inf (t == decide (0 < a))
  | .fin a, .fin b => .fin (a * b)

/-- JS `/` on numbers: NaN propagates, `∞/∞ = NaN`, `x/0 = ±∞` for
`x ≠ 0` and `0/0 = NaN`, finite/∞ = 0. -/
def jdiv : JNum → JNum → JNum
  | .nan, _ => .nan
  | _, .nan => .nan
  | .inf _, .inf _ => .nan
  | .inf s, .fin b => if b = 0 then .inf s else .inf (s == decide (0 < b))
  | .fin _, .inf _ => .fin 0
  | .fin a, .fin b =>
    if b = 0 then (if a = 0 then .nan else .inf (decide (0 < a))) else .fin (a / b)

@[simp]
theorem jadd_fin_fin (a b : ℚ) : jadd (.fin a) (.fin b) = .fin (a + b) := rfl

@[simp]
theorem jmul_fin_fin (a b : ℚ) : jmul (.fin a) (.fin b) = .fin (a * b) := rfl

@[simp]
theorem jadd_fin_inf (a : ℚ) (s : Bool) : jadd (.fin a) (.inf s) = .inf s := rfl

@[simp]
theorem jadd_inf_fin (s : Bool) (a : ℚ) : jadd (.inf s) (.fin a) = .inf s := rfl

@[simp]
theorem jadd_inf_inf_same (s : Bool) : jadd (.inf s) (.inf s) = .inf s := by
  simp [jadd]

@[simp]
theorem jdiv_fin_inf (a : ℚ) (s : Bool) : jdiv (.fin a) (.inf s) = .fin 0 := rfl

theorem jmul_fin_inf_pos {a : ℚ} (ha : 0 < a) (s : Bool) :
    jmul (.fin a) (.inf s) = .inf s := by
  simp [jmul, ha.ne', ha]

theorem jmul_inf_fin_pos {b : ℚ} (hb : 0 < b) (s : Bool) :
    jmul (.inf s) (.fin b) = .inf s := by
  simp [jmul, hb.ne', hb]

theorem jdiv_fin_zero_pos {a : ℚ} (ha : 0 < a) : jdiv (.fin a) (.fin 0) = .inf true := by
  simp [jdiv, ha.ne', ha]

theorem jdiv_inf_fin_pos {b : ℚ} (hb : 0 < b) (s : Bool) :
    jdiv (.inf s) (.fin b) = .inf s := by
  simp [jdiv, hb.ne', hb]

/-- A parsed configuration as JavaScript destructures it: every field may be
absent.  An absent numeric field destructures to `undefined`, which behaves
as NaN in arithmetic; an absent `tie_word_embeddings` is falsy. -/
structure JsModelRecord where
  hidden_size : Option ℚ
  num_hidden_layers : Option ℚ
  intermediate_size : Option ℚ
  vocab_size : Option ℚ
  hidden_act : Option String
  tie_word_embeddings : Option Bool
  num_attention_heads : Option ℚ
  num_key_value_heads : Option ℚ
  torch_dtype : Option String
  deriving DecidableEq

/-- An optional numeric field as an arithmetic operand (`undefined` → NaN). -/
def jsField : Option ℚ → JNum
  | none => .nan
  | some q => .fin q

/-- The property names a plain object literal inherits from
`Object.prototype` (the standard own properties of `Object.prototype`,
plus the `__proto__` accessor): a computed member access
`{ ... }[key]` with one of these keys returns the inherited member, not
`undefined`. -/
def objectPrototypeKeys : List String :=
  ["constructor", "hasOwnProperty", "isPrototypeOf", "propertyIsEnumerable",
   "toLocaleString", "toString", "valueOf", "__defineGetter__", "__defineSetter__",
   "__lookupGetter__", "__lookupSetter__", "__proto__"]

/-- Whether a `torch_dtype` tag names an inherited `Object.prototype`
member of the bytes table object literal. -/
def inheritsPrototypeMember : Option String → Bool
  | some s => objectPrototypeKeys.contains s
  | none => false

/-- The bytes-per-element lookup of App.jsx line 98 under full JavaScript
semantics: `{ float32: 4, float16: 2, bfloat16: 2 }[m.torch_dtype] ?? 4`.
The three recognized tags hit own properties; a tag naming an inherited
`Object.prototype` member returns that member — a function (or, for
`__proto__`, an object), which is not nullish, so `?? 4` does not apply
and the value behaves as NaN in the downstream multiplication (ToNumber
of a plain function or object is NaN), modeled here as `.nan` since the
lookup result is only ever used as a multiplicand; any other tag, or an
absent tag, yields `undefined` and `?? 4` gives 4. -/
def bytesPerElementJs (dtype : Option String) : JNum :=
  if dtype = some "float32" then .fin 4
  else if dtype = some "float16" then .fin 2
  else if dtype = some "bfloat16" then .fin 2
  else if inheritsPrototypeMember dtype then .nan
  else .fin 4

/-- Off the inherited `Object.prototype` property names, the lookup is
numeric and agrees with the exact-rational `bytesPerElement`. -/
theorem bytesPerElementJs_eq_fin (dtype : Option String)
    (hd : inheritsPrototypeMember dtype = false) :
    bytesPerElementJs dtype = .fin (bytesPerElement dtype) := by
  simp only [bytesPerElementJs, bytesPerElement]
  split_ifs with h1 h2 h3 h4 <;> first | rfl | (rw [hd] at h4; exact absurd h4 (by simp))

/-- `calculateModelParameters` under JavaScript number semantics. -/
def calculateModelParametersJs (m : JsModelRecord) : JNum :=
  let isGated := isGatedParams m.hidden_act
  let h := jsField m.hidden_size
  let embed := jmul (jmul (jsField m.vocab_size) h)
    (.fin (if m.tie_word_embeddings.getD false then 1 else 2))
  let head_size := jdiv h (jsField m.num_attention_heads)
  let attn := jadd (jmul (.fin 2) (jmul h h))
    (jmul (jmul (jmul (.fin 2) h) (jsField m.num_key_value_heads)) head_size)
  let ffn := jmul (jmul (.fin (if isGated then 3 else 2)) h) (jsField m.intermediate_size)
  let ln := jmul (.fin 4) h
  jadd embed (jmul (jsField m.num_hidden_layers) (jadd (jadd attn ffn) ln))

/-- `calculateOperations` under JavaScript number semantics. -/
def calculateOperationsJs (m : JsModelRecord) (seq b : ℚ) : JNum :=
  let isGated := isGatedOps m.hidden_act
  let actCost : ℚ := if isGated then 3 else 1
  let kvScale := jdiv (jsField m.num_key_value_heads) (jsField m.num_attention_heads)
  let h := jsField m.hidden_size
  let attention := jadd (jmul (jmul (.fin 2) (jmul h h)) (jadd (.fin 2) (jmul (.fin 2) kvScale)))
    (jmul (jmul (.fin 4) h) (.fin seq))
  let feed_forward := jadd
    (jmul (jmul h (jsField m.intermediate_size)) (.fin (if isGated then 6 else 4)))
    (jmul (jsField m.intermediate_size) (.fin (if isGated then actCost + 1 else actCost)))
  let lm_head := jmul (jmul (.fin 2) h) (jsField m.vocab_size)
  jmul (.fin b) (jadd (jmul (jsField m.num_hidden_layers) (jadd attention feed_forward)) lm_head)

/-- `calculateMemoryReads` under JavaScript number semantics: the bytes
operand is the full object-literal lookup `bytesPerElementJs`, which is
NaN-valued on inherited `Object.prototype` keys. -/
def calculateMemoryReadsJs (m : JsModelRecord) (seq b : ℚ) : JNum :=
  let kv := jmul (jmul (jmul (jmul (.fin b) (.fin seq)) (jsField m.num_hidden_layers))
    (jsField m.hidden_size)) (.fin 2)
  jmul (jadd (calculateModelParametersJs m) kv) (bytesPerElementJs m.torch_dtype)

/-- `calculateThroughput` under JavaScript number semantics: `none` is the
`catch` branch (JSON.parse or the destructuring threw), which returns 0;
arithmetic on a decoded record never throws, it produces a `JNum`. -/
def calculateThroughputJs (cfg : Option JsModelRecord) (mem flops b seq : ℚ) : JNum :=
  match cfg with
  | none => .fin 0
  | some m =>
    let memT := jdiv (calculateMemoryReadsJs m seq b) (.fin (mem * 1000000000))
    let compT := jdiv (calculateOperationsJs m seq b) (.fin (flops * 1000000000000))
    jdiv (.fin b) (jadd memT compT)

theorem calculateModelParametersJs_zero_heads
    (h L i v kvh : ℚ) (act dtype : Option String) (tie : Option Bool)
    (hh : 0 < h) (hL : 0 < L) (hkv : 0 < kvh) :
    calculateModelParametersJs
        ⟨some h, some L, some i, some v, act, tie, some 0, some kvh, dtype⟩
      = .inf true := by
  have p1 : (0:ℚ) < 2 * h * kvh := by positivity
  simp only [calculateModelParametersJs, jsField, jmul_fin_fin, jadd_fin_fin,
    jdiv_fin_zero_pos hh, jmul_fin_inf_pos p1, jadd_fin_inf, jadd_inf_fin,
    jmul_fin_inf_pos hL]

theorem calculateOperationsJs_zero_heads
    (h L i v kvh seq b : ℚ) (act dtype : Option String) (tie : Option Bool)
    (hh : 0 < h) (hL : 0 < L) (hkv : 0 < kvh) (hb : 0 < b) :
    calculateOperationsJs
        ⟨some h, some L, some i, some v, act, tie, some 0, some kvh, dtype⟩ seq b
      = .inf true := by
  have p2 : (0:ℚ) < 2 * (h * h) := by positivity
  have two_pos : (0:ℚ) < 2 := by norm_num
  simp only [calculateOperationsJs, jsField, jmul_fin_fin, jadd_fin_fin,
    jdiv_fin_zero_pos hkv, jmul_fin_inf_pos two_pos, jadd_fin_inf,
    jmul_fin_inf_pos p2, jadd_inf_fin, jmul_fin_inf_pos hL, jmul_fin_inf_pos hb]

theorem calculateMemoryReadsJs_zero_heads
    (h L i v kvh seq b : ℚ) (act dtype : Option String) (tie : Option Bool)
    (hh : 0 < h) (hL : 0 < L) (hkv : 0 < kvh)
    (hdtype : inheritsPrototypeMember dtype = false) :
    calculateMemoryReadsJs
        ⟨some h, some L, some i, some v, act, tie, some 0, some kvh, dtype⟩ seq b
      = .inf true := by
  have hbytes : 0 < bytesPerElement dtype := bytesPerElement_pos dtype
  simp only [calculateMemoryReadsJs, jsField, jmul_fin_fin,
    calculateModelParametersJs_zero_heads h L i v kvh act dtype tie hh hL hkv,
    bytesPerElementJs_eq_fin dtype hdtype,
    jadd_inf_fin, jmul_inf_fin_pos hbytes]

end LLMPerf

namespace LLMPerf

/-- C5 amended: no exception crosses the core boundary (every core function
is total); a parse or destructuring failure yields throughput 0; a decoded
record whose `num_attention_heads` is 0, with the other numeric fields
present and positive and a `torch_dtype` that does not name an inherited
`Object.prototype` member, also yields 0 — the division by zero produces
+Infinity intermediates and `b / ∞ = 0`.  (When `num_attention_heads` is
absent the arithmetic yields NaN, not 0: see the counterexample.  A
prototype-key `torch_dtype` likewise turns the memory term into NaN,
which is why the dtype hypothesis is required: see the C3
counterexample.) -/
theorem throughput_failure_handling_amended :
    (∀ mem flops b seq : ℚ, calculateThroughputJs none mem flops b seq = JNum.fin 0)
    ∧ ∀ (h L i v kvh mem flops b seq : ℚ) (act dtype : Option String) (tie : Option Bool),
        0 < h → 0 < L → 0 < i → 0 < v → 0 < kvh →
        0 < mem → 0 < flops → 0 < b → 0 < seq →
        inheritsPrototypeMember dtype = false →
        calculateThroughputJs
            (some ⟨some h, some L, some i, some v, act, tie, some 0, some kvh, dtype⟩)
            mem flops b seq
          = JNum.fin 0 := by
  constructor
  · intro mem flops b seq
    rfl
  · intro h L i v kvh mem flops b seq act dtype tie hh hL hi hv hkv hmem hflops hb hseq
      hdtype
    have hm9 : (0:ℚ) < mem * 1000000000 := by positivity
    have hf12 : (0:ℚ) < flops * 1000000000000 := by positivity
    simp only [calculateThroughputJs,
      calculateMemoryReadsJs_zero_heads h L i v kvh seq b act dtype tie hh hL hkv hdtype,
      calculateOperationsJs_zero_heads h L i v kvh seq b act dtype tie hh hL hkv hb,
      jdiv_inf_fin_pos hm9, jdiv_inf_fin_pos hf12, jadd_inf_inf_same, jdiv_fin_inf]

/-- Witness for the amended C5: a GPT-2-small-like record with
`num_attention_heads: 0` (and no `torch_dtype`, which is not a prototype
key) yields throughput 0 on the default hardware. -/
theorem throughput_failure_handling_amended_witness :
    calculateThroughputJs
        (some ⟨some 768, some 12, some 3072, some 50257, some "gelu", some true,
          some 0, some 12, none⟩) 1792 209 1 16
      = JNum.fin 0 :=
  throughput_failure_handling_amended.2 768 12 3072 50257 12 1792 209 1 16
    (some "gelu") none (some true) (by norm_num) (by norm_num) (by norm_num)
    (by norm_num) (by norm_num) (by norm_num) (by norm_num) (by norm_num) (by norm_num)
    (by decide)

/-- C5 counterexample: a record with `num_attention_heads` absent (all other
fields those of the GPT-2-small-like shape) makes the arithmetic produce
NaN — `undefined` propagates as NaN and JS arithmetic never throws — and
`calculateThroughput` returns that NaN into the curve, not the claimed 0. -/
theorem throughput_nan_counterexample :
    calculateThroughputJs
        (some ⟨some 768, some 12, some 3072, some 50257, some "gelu", some true,
          none, some 12, none⟩) 1792 209 1 16
      = JNum.nan
    ∧ calculateThroughputJs
        (some ⟨some 768, some 12, some 3072, some 50257, some "gelu", some true,
          none, some 12, none⟩) 1792 209 1 16
      ≠ JNum.fin 0 := by
  constructor
  · rfl
  · decide

/-- On a record with all numeric fields present and a nonzero head count,
the JavaScript-number semantics of the parameter count is finite and
agrees exactly with the exact-rational model. -/
theorem calculateModelParametersJs_fin (h L i v heads kv : ℚ) (act dtype : Option String)
    (tie : Option Bool) (hheads : heads ≠ 0) :
    calculateModelParametersJs
        ⟨some h, some L, some i, some v, act, tie, some heads, some kv, dtype⟩
      = .fin (calculateModelParameters ⟨h, L, i, v, act, tie.getD false, heads, kv, dtype⟩) := by
  have hdiv : jdiv (.fin h) (.fin heads) = .fin (h / heads) := by simp [jdiv, hheads]
  simp only [calculateModelParametersJs, jsField, hdiv, jmul_fin_fin, jadd_fin_fin,
    calculateModelParameters]
  congr 1
  ring

end LLMPerf

namespace LLMPerf

/-- C3 counterexample: "toString" is an unrecognized precision tag, yet the
object-literal lookup `{float32: 4, float16: 2, bfloat16: 2}["toString"]`
returns the inherited `Object.prototype.toString` function rather than
`undefined`, so `?? 4` never applies, and the memory estimate becomes
NaN — not `(params + kv_cache) × 4` as the claim's default-to-4 rule
demands. -/
theorem memory_traffic_prototype_counterexample :
    bytesPerElementJs (some "toString") ≠ JNum.fin 4
    ∧ calculateMemoryReadsJs
        ⟨some 768, some 12, some 3072, some 50257, some "gelu", some true,
          some 12, some 12, some "toString"⟩ 1 1
      = JNum.nan
    ∧ calculateMemoryReadsJs
        ⟨some 768, some 12, some 3072, some 50257, some "gelu", some true,
          some 12, some 12, some "toString"⟩ 1 1
      ≠ JNum.fin ((123568896 + 1 * 1 * 12 * 768 * 2) * 4) := by
  refine ⟨by decide, rfl, by decide⟩

/-- C3 amended: the memory estimator is `(params + kv_cache) × bytes` with
bytes 4 for float32, 2 for float16, 2 for bfloat16, and 4 for an absent
tag or an unrecognized tag that is NOT an inherited `Object.prototype`
property name; for a prototype-key tag (e.g. "toString") the lookup
yields the inherited member and the estimate becomes NaN (see the
counterexample).  Off the prototype keys, and whenever the head count is
nonzero, the JavaScript semantics agrees exactly with the exact-rational
model, which satisfies the spec §4.4 formula. -/
theorem memory_traffic_amended :
    (∀ (m : ModelRecord) (seq b : ℚ), calculateMemoryReads m seq b = specMemoryTraffic m seq b)
    ∧ bytesPerElementJs (some "float32") = JNum.fin 4
    ∧ bytesPerElementJs (some "float16") = JNum.fin 2
    ∧ bytesPerElementJs (some "bfloat16") = JNum.fin 2
    ∧ bytesPerElementJs none = JNum.fin 4
    ∧ (∀ s : String, inheritsPrototypeMember (some s) = false →
        s ≠ "float32" → s ≠ "float16" → s ≠ "bfloat16" →
        bytesPerElementJs (some s) = JNum.fin 4)
    ∧ (∀ s ∈ objectPrototypeKeys, bytesPerElementJs (some s) = JNum.nan)
    ∧ ∀ (h L i v heads kv seq b : ℚ) (act dtype : Option String) (tie : Option Bool),
        heads ≠ 0 → inheritsPrototypeMember dtype = false →
        calculateMemoryReadsJs
            ⟨some h, some L, some i, some v, act, tie, some heads, some kv, dtype⟩ seq b
          = JNum.fin (calculateMemoryReads
              ⟨h, L, i, v, act, tie.getD false, heads, kv, dtype⟩ seq b) := by
  refine ⟨fun m seq b => rfl, rfl, rfl, rfl, rfl, ?_, ?_, ?_⟩
  · intro s hp h1 h2 h3
    simp [bytesPerElementJs, h1, h2, h3, hp]
  · intro s hs
    fin_cases hs <;> decide
  · intro h L i v heads kv seq b act dtype tie hheads hdtype
    simp only [calculateMemoryReadsJs, jsField,
      calculateModelParametersJs_fin h L i v heads kv act dtype tie hheads,
      bytesPerElementJs_eq_fin dtype hdtype, jmul_fin_fin, jadd_fin_fin,
      calculateMemoryReads]

/-- Witness for the amended C3: the unrecognized non-prototype tag "int8"
gives 4 bytes; the prototype key "toString" gives NaN; and at a concrete
GPT-2-small-like record with tag "float16", batch 2 and sequence length
4, the JS semantics agrees with the exact-rational model. -/
theorem memory_traffic_amended_witness :
    bytesPerElementJs (some "int8") = JNum.fin 4
    ∧ bytesPerElementJs (some "toString") = JNum.nan
    ∧ calculateMemoryReadsJs
        ⟨some 768, some 12, some 3072, some 50257, some "gelu", some true,
          some 12, some 12, some "float16"⟩ 4 2
      = JNum.fin (calculateMemoryReads
          ⟨768, 12, 3072, 50257, some "gelu", true, 12, 12, some "float16"⟩ 4 2) :=
  ⟨memory_traffic_amended.2.2.2.2.2.1 "int8" (by decide) (by decide) (by decide) (by decide),
   memory_traffic_amended.2.2.2.2.2.2.1 "toString" (by decide),
   memory_traffic_amended.2.2.2.2.2.2.2 768 12 3072 50257 12 12 4 2 (some "gelu")
     (some "float16") (some true) (by norm_num) (by decide)⟩

end LLMPerf

namespace LLMPerf

/-! ### The debounce hook (App.jsx lines 31-38, used with delay 200 at line 116)

`useDebounce` schedules `setDebounced(value)` on a timer `delay`
milliseconds after each edit, and the React effect cleanup runs
`clearTimeout` on the previously pending timer before each new edit's
timer is scheduled.  The model processes edits tagged with timestamps in
increasing order: at each edit, a pending timer whose fire time has
already been reached has fired (its value was published as a recompute);
any still-pending timer is cancelled; the edit then schedules its own
timer at `editTime + delay`.  `debounceFlush` is quiescence: the last
pending timer fires. -/

/-- The debounce delay for the configuration text: `useDebounce(config, 200)`. -/
def configDebounceDelay : ℚ := 200

/-- Debounce state: the pending timer (fire time, value), and the values
already published (each publication triggers one curve recompute). -/
structure DebounceState where
  pending : Option (ℚ × String)
  fired : List String
  deriving DecidableEq

/-- Initial state: no timer pending, nothing published. -/
def debounceInit : DebounceState := ⟨none, []⟩

/-- One edit `(t, v)`: a pending timer with fire time ≤ `t` has fired;
otherwise `clearTimeout` cancels it; then `setTimeout` schedules `v` at
`t + delay`. -/
def debounceEdit (delay : ℚ) (st : DebounceState) (e : ℚ × String) : DebounceState :=
  ⟨some (e.1 + delay, e.2),
   match st.pending with
   | some p => if p.1 ≤ e.1 then st.fired ++ [p.2] else st.fired
   | none => st.fired⟩

/-- Process a sequence of edits in time order from the initial state. -/
def debounceRun (delay : ℚ) (edits : List (ℚ × String)) : DebounceState :=
  edits.foldl (debounceEdit delay) debounceInit

/-- Let the system go quiescent: the pending timer, if any, fires.  The
result is the full list of published recomputes, in order. -/
def debounceFlush (st : DebounceState) : List String :=
  match st.pending with
  | some p => st.fired ++ [p.2]
  | none => st.fired

theorem debounceEdits_cancel (delay : ℚ) :
    ∀ (rest : List (ℚ × String)) (e : ℚ × String) (F : List String) (ft : ℚ) (v : String),
      e.1 < ft →
      List.Chain' (fun a b : ℚ × String => b.1 < a.1 + delay) (e :: rest) →
      (e :: rest).foldl (debounceEdit delay) ⟨some (ft, v), F⟩
        = ⟨some (((e :: rest).getLast (List.cons_ne_nil e rest)).1 + delay,
              ((e :: rest).getLast (List.cons_ne_nil e rest)).2), F⟩ := by
  intro rest
  induction rest with
  | nil =>
    intro e F ft v hlt _
    simp [debounceEdit, not_le.mpr hlt]
  | cons f rs ih =>
    intro e F ft v hlt hchain
    have hf : f.1 < e.1 + delay := (List.chain'_cons.mp hchain).1
    have hchain' : List.Chain' (fun a b : ℚ × String => b.1 < a.1 + delay) (f :: rs) :=
      (List.chain'_cons.mp hchain).2
    have hstep : debounceEdit delay ⟨some (ft, v), F⟩ e = ⟨some (e.1 + delay, e.2), F⟩ := by
      simp [debounceEdit, not_le.mpr hlt]
    rw [List.foldl_cons, hstep, ih f F (e.1 + delay) e.2 hf hchain']
    rw [List.getLast_cons (List.cons_ne_nil f rs)]

end LLMPerf

namespace LLMPerf

/-- C9: for every nonempty sequence of edits in which each edit arrives
strictly less than the 200ms debounce delay after the previous one, exactly
one recompute is published, and it carries the final edit's text — every
earlier pending timer is cancelled before it can fire. -/
theorem debounce_single_recompute :
    ∀ (edits : List (ℚ × String)) (h : edits ≠ []),
      List.Chain' (fun a b : ℚ × String => b.1 < a.1 + configDebounceDelay) edits →
      debounceFlush (debounceRun configDebounceDelay edits) = [(edits.getLast h).2] := by
  intro edits h hchain
  cases edits with
  | nil => exact absurd rfl h
  | cons e rest =>
    cases rest with
    | nil =>
      simp [debounceRun, debounceInit, debounceEdit, debounceFlush]
    | cons f rs =>
      have hf : f.1 < e.1 + configDebounceDelay := (List.chain'_cons.mp hchain).1
      have hchain' :
          List.Chain' (fun a b : ℚ × String => b.1 < a.1 + configDebounceDelay) (f :: rs) :=
        (List.chain'_cons.mp hchain).2
      have hstep : debounceEdit configDebounceDelay debounceInit e
          = ⟨some (e.1 + configDebounceDelay, e.2), []⟩ := by
        simp [debounceEdit, debounceInit]
      rw [debounceRun, List.foldl_cons, hstep,
        debounceEdits_cancel configDebounceDelay rs f [] (e.1 + configDebounceDelay)
          e.2 hf hchain']
      rw [List.getLast_cons (List.cons_ne_nil f rs)]
      rfl

/-- Witness for C9: three rapid edits at t = 0, 100, 150 ms (gaps below the
200ms window) publish exactly one recompute, carrying the final text. -/
theorem debounce_single_recompute_witness :
    debounceFlush (debounceRun configDebounceDelay
        [((0:ℚ), "a"), ((100:ℚ), "ab"), ((150:ℚ), "abc")])
      = [(([((0:ℚ), "a"), ((100:ℚ), "ab"), ((150:ℚ), "abc")]).getLast
          (List.cons_ne_nil _ _)).2] :=
  debounce_single_recompute [((0:ℚ), "a"), ((100:ℚ), "ab"), ((150:ℚ), "abc")]
    (List.cons_ne_nil _ _) (by norm_num [List.chain'_cons, configDebounceDelay])

/-- C10: an activation is classified as gated exactly when `hidden_act` is
one of the case-sensitive strings "silu", "swiglu", "geglu"; both the check
in `calculateModelParameters` and the independent check in
`calculateOperations` agree on every record; "SiLU", "gelu" and an absent
field are non-gated. -/
theorem gated_activation_classification :
    (∀ a : Option String, isGatedParams a = isGatedOps a)
    ∧ (∀ a : Option String,
        isGatedParams a = true ↔ (a = some "silu" ∨ a = some "swiglu" ∨ a = some "geglu"))
    ∧ isGatedParams (some "SiLU") = false
    ∧ isGatedOps (some "gelu") = false
    ∧ isGatedParams none = false := by
  refine ⟨fun a => rfl, ?_, by decide, by decide, rfl⟩
  intro a
  cases a with
  | none => simp [isGatedParams]
  | some s => simp [isGatedParams, gatedActivationNames]

end LLMPerf
